import Mathlib

/-!
Verification of the disc image download pipeline
(`download_disc_images.py`) against its specification.

We shallowly embed the pure logic of the script: filename sanitization,
image-URL resolution, page-extraction outcomes, color-mode normalization,
the candidate selector query, the per-record pipeline `process_disc`, the
database update, and the main dispatch/accounting loop.  Network fetches,
HTML parsing and image decoding are external effects; they enter the
embedding as oracle parameters (a fetch result, a download function)
exactly where the script consumes their results.
-/

namespace DiscCharts

/-! ## Filename sanitization (`sanitize_filename`) -/

/-- The filesystem-reserved characters of the character class in
`re.sub(r'[<>:"/\\|?*]', '_', name)`. -/
def reservedChars : List Char := ['<', '>', ':', '"', '/', '\\', '|', '?', '*']

def isReserved (c : Char) : Bool := reservedChars.contains c

/-- The whitespace characters matched by the regex class `\s`
(ASCII: space, tab, newline, carriage return, vertical tab, form feed). -/
def wsChars : List Char := [' ', '\t', '\n', '\r', '\x0b', '\x0c']

def isWs (c : Char) : Bool := wsChars.contains c

/-- First substitution of `sanitize_filename`:
`re.sub(r'[<>:"/\\|?*]', '_', name)` replaces every reserved character
with an underscore. -/
def replaceReserved (cs : List Char) : List Char :=
  cs.map (fun c => if isReserved c then '_' else c)

/-- Second substitution of `sanitize_filename`: `re.sub(r'\s+', '_', s)`
replaces every maximal run of whitespace with a single underscore.
The boolean flag records whether the previous character was whitespace
(i.e. whether we are inside a run already replaced). -/
def collapseWsAux : Bool → List Char → List Char
  | _, [] => []
  | prevWs, c :: rest =>
    if isWs c then
      if prevWs then collapseWsAux true rest
      else '_' :: collapseWsAux true rest
    else c :: collapseWsAux false rest

def collapseWs (cs : List Char) : List Char := collapseWsAux false cs

/-- `sanitize_filename(name)`: replace reserved characters, then collapse
whitespace runs, each to an underscore. -/
def sanitize_filename (s : String) : String :=
  String.mk (collapseWs (replaceReserved s.data))

/-! ## URL resolution inside `extract_image_url` -/

/-- Python `str.startswith(prefix)`. -/
def startswith (s pre : String) : Bool := pre.data.isPrefixOf s.data

/-- `urlparse(weblink).scheme` for an absolute http(s) URL:
the part before the first ":". -/
def urlScheme (u : String) : String :=
  String.mk (u.data.takeWhile (fun c => c ≠ ':'))

/-- `urlparse(weblink).netloc` for an absolute http(s) URL:
the part between "://" and the next "/". -/
def urlNetloc (u : String) : String :=
  String.mk (((u.data.dropWhile (fun c => c ≠ ':')).drop 3).takeWhile (fun c => c ≠ '/'))

/-- The relative-URL handling of `extract_image_url`:
`if img_url.startswith("//"): img_url = "https:" + img_url`
`elif img_url.startswith("/"): img_url = f"{parsed.scheme}://{parsed.netloc}{img_url}"`. -/
def resolve_img_url (weblink : String) (src : String) : String :=
  if startswith src "//" then "https:" ++ src
  else if startswith src "/" then
    urlScheme weblink ++ "://" ++ urlNetloc weblink ++ src
  else src

/-! ## Page extraction (`extract_image_url`) -/

/-- What the script observes of the page fetch + CSS selection:
either the `try` block raised (network error or `raise_for_status`), or
the page was fetched and `soup.select_one("a.img-holder img.img-fluid")`
followed by `.get("src")` produced `srcAttr` (`none` when no matching
element exists or it has no `src` attribute). -/
inductive FetchResult where
  | error
  | page (srcAttr : Option String)
deriving DecidableEq

/-- `extract_image_url(weblink)` given the oracled fetch result.
The guard `if img_holder and img_holder.get("src")` treats a missing
element, a missing attribute and an empty `src` string all as falsy;
the `except` handler turns any raised exception into `None`. -/
def extract_image_url (weblink : String) (fetch : FetchResult) : Option String :=
  match fetch with
  | .error => none
  | .page srcAttr =>
    match srcAttr with
    | none => none
    | some src => if src.isEmpty then none else some (resolve_img_url weblink src)

/-! ## Image normalization (`download_and_convert_image`) -/

/-- The color-mode branch of `download_and_convert_image`:
`if img.mode in ("RGBA", "LA", "P"): if img.mode == "P": img = img.convert("RGBA")`
`elif img.mode != "RGB": img = img.convert("RGB")`. -/
def normalizeMode (mode : String) : String :=
  if mode = "RGBA" ∨ mode = "LA" ∨ mode = "P" then
    if mode = "P" then "RGBA" else mode
  else if mode ≠ "RGB" then "RGB"
  else mode

/-- PIL truecolor modes (RGB-based pixel modes). -/
def truecolorModes : List String := ["RGB", "RGBX", "RGBA", "RGBa"]

/-- The result of a successful `download_and_convert_image` call:
the re-encoded image, described by the save parameters
`img.save(png_buffer, format="PNG", optimize=True)` and the mode the
image had at that point. -/
structure EncodedImage where
  format : String
  optimize : Bool
  mode : String
deriving DecidableEq

/-- `download_and_convert_image(img_url)` given the oracled result of the
image fetch + decode: `none` when the GET failed, `raise_for_status`
raised, or `Image.open` failed to decode (all caught by the `except`
handler); `some mode` when a source image with that color mode was
decoded. -/
def download_and_convert_image (decoded : Option String) : Option EncodedImage :=
  match decoded with
  | none => none
  | some mode => some ⟨"PNG", true, normalizeMode mode⟩

/-! ## Catalog rows and the task selector (`get_discs_to_process`) -/

/-- A row of the `disc_data` table, restricted to the columns the script
touches.  `weblink` is a nullable TEXT column; `img` is the nullable BLOB
column added by `ensure_img_column`, modelled as an optional byte list. -/
structure DiscRow where
  id : Nat
  manufacturer : String
  model : String
  weblink : Option String
  img : Option (List Nat)
deriving DecidableEq

/-- The WHERE clause of the selector query:
`weblink IS NOT NULL AND weblink != '' AND (img IS NULL OR img = '')`. -/
def eligibleRow (r : DiscRow) : Bool :=
  match r.weblink with
  | none => false
  | some w =>
    !w.isEmpty &&
      (match r.img with
       | none => true
       | some b => b.isEmpty)

/-- The rows the selector query returns, before column projection. -/
def selectRows (rows : List DiscRow) : List DiscRow :=
  rows.filter eligibleRow

/-- A row of the selector result as the script sees it:
`SELECT id, model, manufacturer, weblink` turned into a dict. -/
structure Disc where
  id : Nat
  model : String
  manufacturer : String
  weblink : String
deriving DecidableEq

/-- The column projection of the selector query (for selected rows
`weblink` is guaranteed non-null by the WHERE clause). -/
def toDisc (r : DiscRow) : Disc :=
  ⟨r.id, r.model, r.manufacturer, r.weblink.getD ""⟩

/-- `get_discs_to_process(db_path)`: the selected rows, projected. -/
def get_discs_to_process (rows : List DiscRow) : List Disc :=
  (selectRows rows).map toDisc

/-! ## The per-record pipeline (`process_disc`) -/

/-- `process_disc(disc)` given the oracled fetch result for the record
page and the oracled image download+decode function.  The guards
`if not img_url` and `if not png_bytes` treat `None` and the empty
string/bytes alike as falsy. -/
def process_disc (disc : Disc) (fetch : FetchResult)
    (download : String → Option (List Nat)) :
    Nat × Option (List Nat) × Option String :=
  let filename :=
    sanitize_filename disc.manufacturer ++ "_" ++ sanitize_filename disc.model ++ ".png"
  match extract_image_url disc.weblink fetch with
  | none => (disc.id, none, none)
  | some img_url =>
    if img_url.isEmpty then (disc.id, none, none)
    else
      match download img_url with
      | none => (disc.id, none, none)
      | some png_bytes =>
        if png_bytes.isEmpty then (disc.id, none, none)
        else (disc.id, some png_bytes, some filename)

/-! ## Persistence (`update_db_image`, `save_to_file`) -/

/-- `UPDATE disc_data SET img = ? WHERE id = ?`. -/
def update_db_image (db : List DiscRow) (disc_id : Nat) (img_data : List Nat) :
    List DiscRow :=
  db.map (fun r => if r.id = disc_id then { r with img := some img_data } else r)

/-- `save_to_file(filename, data)`: a name-keyed write into the backup
directory, overwriting an existing file of the same name. -/
def save_to_file (files : List (String × List Nat)) (filename : String)
    (data : List Nat) : List (String × List Nat) :=
  if files.any (fun p => p.1 = filename) then
    files.map (fun p => if p.1 = filename then (filename, data) else p)
  else files ++ [(filename, data)]

/-! ## The main dispatch loop (`main`) -/

/-- The mutable state of `main` while draining completed futures:
the catalog, the backup directory, and the two counters. -/
structure MainState where
  db : List DiscRow
  files : List (String × List Nat)
  success_count : Nat
  fail_count : Nat
deriving DecidableEq

/-- What `as_completed` delivers for one task: either `future.result()`
raised (caught by the `except` branch), or `process_disc` returned the
triple `(disc_id, png_bytes, filename)`. -/
inductive TaskOutcome where
  | raised
  | completed (disc_id : Nat) (png_bytes : Option (List Nat)) (filename : Option String)
deriving DecidableEq

/-- The truthiness test `if png_bytes and filename` of `main`. -/
def isSuccessOutcome : TaskOutcome → Bool
  | .raised => false
  | .completed _ png_bytes filename =>
    (match png_bytes with | none => false | some b => !b.isEmpty) &&
    (match filename with | none => false | some f => !f.isEmpty)

/-- The body of the `for future in as_completed(...)` loop for one task:
on a truthy `(png_bytes, filename)` pair, write the catalog row, write the
backup file, bump `success_count`; otherwise bump `fail_count`; an
exception from the future also bumps `fail_count`. -/
def handle_outcome (st : MainState) (o : TaskOutcome) : MainState :=
  match o with
  | .raised => { st with fail_count := st.fail_count + 1 }
  | .completed disc_id png_bytes filename =>
    match png_bytes, filename with
    | some b, some f =>
      if b.isEmpty || f.isEmpty then { st with fail_count := st.fail_count + 1 }
      else
        { st with
          db := update_db_image st.db disc_id b
          files := save_to_file st.files f b
          success_count := st.success_count + 1 }
    | _, _ => { st with fail_count := st.fail_count + 1 }

/-- The whole completion loop of `main`, over the outcomes in the order
`as_completed` yields them. -/
def run_outcomes (st : MainState) (outcomes : List TaskOutcome) : MainState :=
  outcomes.foldl handle_outcome st

/-! ## Lemmas about `sanitize_filename` -/

theorem not_reserved_of_mem_replaceReserved {c : Char} {cs : List Char}
    (h : c ∈ replaceReserved cs) : isReserved c = false := by
  simp only [replaceReserved, List.mem_map] at h
  obtain ⟨a, _, ha⟩ := h
  split at ha
  · subst ha; decide
  · subst ha
    rename_i hr
    simpa using hr

theorem mem_collapseWsAux {c : Char} (cs : List Char) :
    ∀ b, c ∈ collapseWsAux b cs → isWs c = false ∧ (c ∈ cs ∨ c = '_') := by
  induction cs with
  | nil => intro b h; simp [collapseWsAux] at h
  | cons a rest ih =>
    intro b h
    simp only [collapseWsAux] at h
    split at h
    · split at h
      · rcases ih true h with ⟨h1, h2⟩
        exact ⟨h1, h2.elim (fun hm => Or.inl (List.mem_cons_of_mem _ hm)) Or.inr⟩
      · rcases List.mem_cons.mp h with hc | hm
        · subst hc; exact ⟨by decide, Or.inr rfl⟩
        · rcases ih true hm with ⟨h1, h2⟩
          exact ⟨h1, h2.elim (fun hm2 => Or.inl (List.mem_cons_of_mem _ hm2)) Or.inr⟩
    · rcases List.mem_cons.mp h with hc | hm
      · subst hc
        rename_i hws
        exact ⟨by simpa using hws, Or.inl (List.mem_cons_self _ _)⟩
      · rcases ih false hm with ⟨h1, h2⟩
        exact ⟨h1, h2.elim (fun hm2 => Or.inl (List.mem_cons_of_mem _ hm2)) Or.inr⟩

theorem replaceReserved_of_no_reserved :
    ∀ cs : List Char, (∀ c ∈ cs, isReserved c = false) → replaceReserved cs = cs := by
  intro cs
  induction cs with
  | nil => intro _; rfl
  | cons a rest ih =>
    intro h
    have ha := h a (List.mem_cons_self a rest)
    have hrest := ih (fun c hc => h c (List.mem_cons_of_mem a hc))
    simp only [replaceReserved, List.map_cons] at hrest ⊢
    simp [ha, hrest]

theorem collapseWsAux_of_no_ws :
    ∀ (cs : List Char) (b : Bool), (∀ c ∈ cs, isWs c = false) → collapseWsAux b cs = cs := by
  intro cs
  induction cs with
  | nil => intro b _; rfl
  | cons a rest ih =>
    intro b h
    have ha := h a (List.mem_cons_self a rest)
    have hrest := ih false (fun c hc => h c (List.mem_cons_of_mem a hc))
    simp [collapseWsAux, ha, hrest]

theorem sanitize_filename_no_bad_chars (s : String) :
    ∀ c ∈ (sanitize_filename s).data, isReserved c = false ∧ isWs c = false := by
  intro c hc
  have hc2 : c ∈ collapseWsAux false (replaceReserved s.data) := hc
  rcases mem_collapseWsAux (replaceReserved s.data) false hc2 with ⟨hws, hmem | hund⟩
  · exact ⟨not_reserved_of_mem_replaceReserved hmem, hws⟩
  · subst hund; exact ⟨by decide, by decide⟩

/-! ## Lemmas about `process_disc` -/

/-- `process_disc` either fails with both result fields `None`, or
succeeds with non-empty bytes and the sanitized filename. -/
theorem process_disc_eq (disc : Disc) (fetch : FetchResult)
    (download : String → Option (List Nat)) :
    process_disc disc fetch download = (disc.id, none, none) ∨
    ∃ b, b.isEmpty = false ∧
      process_disc disc fetch download =
        (disc.id, some b, some (sanitize_filename disc.manufacturer ++ "_" ++
          sanitize_filename disc.model ++ ".png")) := by
  unfold process_disc
  cases h1 : extract_image_url disc.weblink fetch with
  | none => exact Or.inl rfl
  | some u =>
    by_cases h2 : u.isEmpty
    · simp [h2]
    · simp only [h2, Bool.false_eq_true, if_false]
      cases h3 : download u with
      | none => simp
      | some b =>
        by_cases h4 : b.isEmpty
        · simp [h4]
        · simp only [h4, Bool.false_eq_true, if_false]
          exact Or.inr ⟨b, by simpa using h4, rfl⟩

/-! ## Claim theorems -/

/-- C7: the backup filename derived by `process_disc` is
`sanitize_filename(manufacturer) + "_" + sanitize_filename(model) + ".png"`,
and it contains no filesystem-reserved character and no whitespace. -/
theorem process_disc_filename_spec (disc : Disc) (fetch : FetchResult)
    (download : String → Option (List Nat)) (f : String)
    (h : (process_disc disc fetch download).2.2 = some f) :
    f = sanitize_filename disc.manufacturer ++ "_" ++
        sanitize_filename disc.model ++ ".png" ∧
    ∀ c ∈ f.data, isReserved c = false ∧ isWs c = false := by
  rcases process_disc_eq disc fetch download with heq | ⟨b, _, heq⟩
  · rw [heq] at h; simp at h
  · rw [heq] at h
    simp only [Option.some.injEq] at h
    subst h
    refine ⟨rfl, ?_⟩
    intro c hc
    simp only [String.data_append, List.mem_append] at hc
    rcases hc with ((hm | hu) | hm2) | hp
    · exact sanitize_filename_no_bad_chars disc.manufacturer c hm
    · have : c ∈ ['_'] := hu
      simp at this
      subst this
      exact ⟨by decide, by decide⟩
    · exact sanitize_filename_no_bad_chars disc.model c hm2
    · have : c ∈ ['.', 'p', 'n', 'g'] := hp
      simp at this
      rcases this with rfl | rfl | rfl | rfl <;> exact ⟨by decide, by decide⟩

/-- Witness for C7 at a concrete record whose pipeline succeeds. -/
theorem process_disc_filename_spec_witness :
    ("Innova_Destroyer.png" : String) = sanitize_filename "Innova" ++ "_" ++
        sanitize_filename "Destroyer" ++ ".png" ∧
    ∀ c ∈ ("Innova_Destroyer.png" : String).data, isReserved c = false ∧ isWs c = false :=
  process_disc_filename_spec ⟨1, "Destroyer", "Innova", "https://example.com/d"⟩
    (FetchResult.page (some "https://cdn.example.com/x.webp")) (fun _ => some [137])
    "Innova_Destroyer.png" (by decide)

/-- C10: `sanitize_filename` is idempotent — its output contains no
reserved characters and no whitespace, so a second application is the
identity. -/
theorem sanitize_filename_idempotent (s : String) :
    sanitize_filename (sanitize_filename s) = sanitize_filename s := by
  have h := sanitize_filename_no_bad_chars s
  have h1 : replaceReserved (sanitize_filename s).data = (sanitize_filename s).data :=
    replaceReserved_of_no_reserved _ (fun c hc => (h c hc).1)
  show String.mk (collapseWsAux false (replaceReserved (sanitize_filename s).data)) =
    sanitize_filename s
  rw [h1]
  have h2 : collapseWsAux false (sanitize_filename s).data = (sanitize_filename s).data :=
    collapseWsAux_of_no_ws _ false (fun c hc => (h c hc).2)
  rw [h2]

/-- C4 counterexample: for the origin page `http://example.com/path/page`
(scheme `http`), the protocol-relative reference `//cdn.example.com/x.webp`
is resolved to `https://cdn.example.com/x.webp`, not to the
origin-scheme-prefixed `http://cdn.example.com/x.webp` — the code hardcodes
the `https` scheme instead of using the origin page's scheme. -/
theorem resolve_img_url_counterexample :
    resolve_img_url "http://example.com/path/page" "//cdn.example.com/x.webp" =
      "https://cdn.example.com/x.webp" ∧
    urlScheme "http://example.com/path/page" = "http" ∧
    resolve_img_url "http://example.com/path/page" "//cdn.example.com/x.webp" ≠
      "http" ++ ":" ++ "//cdn.example.com/x.webp" := by
  refine ⟨by decide, by decide, by decide⟩

/-- C4 (amended): a reference beginning with `//` is resolved by prefixing
the literal `https` scheme (regardless of the origin page's scheme); a
reference beginning with a single `/` is resolved by prefixing the origin
page's scheme and host; any other reference is returned unchanged. -/
theorem resolve_img_url_spec (w s : String) :
    (startswith s "//" = true → resolve_img_url w s = "https:" ++ s) ∧
    (startswith s "//" = false → startswith s "/" = true →
      resolve_img_url w s = urlScheme w ++ "://" ++ urlNetloc w ++ s) ∧
    (startswith s "//" = false → startswith s "/" = false →
      resolve_img_url w s = s) := by
  refine ⟨fun h => by simp [resolve_img_url, h],
    fun h1 h2 => by simp [resolve_img_url, h1, h2],
    fun h1 h2 => by simp [resolve_img_url, h1, h2]⟩

/-- Witness for C4 (amended): the three spec examples over the origin
`https://example.com/path/page`. -/
theorem resolve_img_url_spec_witness :
    resolve_img_url "https://example.com/path/page" "//cdn.example.com/x.webp" =
      "https:" ++ "//cdn.example.com/x.webp" ∧
    resolve_img_url "https://example.com/path/page" "/img/x.webp" =
      urlScheme "https://example.com/path/page" ++ "://" ++
        urlNetloc "https://example.com/path/page" ++ "/img/x.webp" ∧
    resolve_img_url "https://example.com/path/page" "https://other.com/x.webp" =
      "https://other.com/x.webp" :=
  ⟨(resolve_img_url_spec "https://example.com/path/page" "//cdn.example.com/x.webp").1
      (by decide),
   (resolve_img_url_spec "https://example.com/path/page" "/img/x.webp").2.1
      (by decide) (by decide),
   (resolve_img_url_spec "https://example.com/path/page" "https://other.com/x.webp").2.2
      (by decide) (by decide)⟩

/-- C5 counterexample: a source image in mode `LA` (grayscale with alpha)
is left in mode `LA` — it is not converted to a truecolor mode, contrary
to the claim that every transparency-carrying source is converted to a
transparency-preserving truecolor mode. -/
theorem normalizeMode_counterexample :
    normalizeMode "LA" = "LA" ∧
    truecolorModes.contains (normalizeMode "LA") = false := by
  refine ⟨by decide, by decide⟩

/-- C5 (amended): a palette-indexed (`P`) source is converted to `RGBA`;
`RGBA` and `LA` sources are left in their alpha-preserving mode unchanged
(`LA` stays grayscale-with-alpha, not truecolor); any other non-`RGB` mode
is converted to `RGB`; the result is re-encoded as PNG with optimization
enabled. -/
theorem download_and_convert_spec (m : String) :
    normalizeMode "P" = "RGBA" ∧
    normalizeMode "RGBA" = "RGBA" ∧
    normalizeMode "LA" = "LA" ∧
    normalizeMode "RGB" = "RGB" ∧
    (m ≠ "P" → m ≠ "RGBA" → m ≠ "LA" → m ≠ "RGB" → normalizeMode m = "RGB") ∧
    ∀ d img, download_and_convert_image d = some img →
      img.format = "PNG" ∧ img.optimize = true ∧
        ∃ mode, d = some mode ∧ img.mode = normalizeMode mode := by
  refine ⟨by decide, by decide, by decide, by decide, ?_, ?_⟩
  · intro h1 h2 h3 h4
    simp [normalizeMode, h1, h2, h3, h4]
  · intro d img h
    cases d with
    | none => simp [download_and_convert_image] at h
    | some mode =>
      simp only [download_and_convert_image, Option.some.injEq] at h
      subst h
      exact ⟨rfl, rfl, mode, rfl, rfl⟩

/-- Witness for C5 (amended) at mode `CMYK` and a decoded `P` image. -/
theorem download_and_convert_spec_witness :
    normalizeMode "CMYK" = "RGB" ∧
    (EncodedImage.mk "PNG" true (normalizeMode "P")).format = "PNG" ∧
    (EncodedImage.mk "PNG" true (normalizeMode "P")).optimize = true ∧
    ∃ mode, (some "P" : Option String) = some mode ∧
      (EncodedImage.mk "PNG" true (normalizeMode "P")).mode = normalizeMode mode :=
  ⟨(download_and_convert_spec "CMYK").2.2.2.2.1 (by decide) (by decide) (by decide)
      (by decide),
   (download_and_convert_spec "CMYK").2.2.2.2.2 (some "P")
      (EncodedImage.mk "PNG" true (normalizeMode "P")) rfl⟩

/-- C6 counterexample: a transport-level failure and a fetched page with
no matching element both make `extract_image_url` return `None` — from the
return value alone, a consumer cannot tell the two cases apart. -/
theorem extract_image_url_counterexample :
    extract_image_url "https://example.com/p" FetchResult.error =
      extract_image_url "https://example.com/p" (FetchResult.page none) ∧
    extract_image_url "https://example.com/p" (FetchResult.page none) = none := by
  refine ⟨rfl, rfl⟩

/-- C6 (amended): both the "not found" case (page fetched, no matching
element / no `src` attribute) and the transport-failure case return `None`
— they are indistinguishable in `extract_image_url`'s return value —
and in neither case does an exception propagate: the function totally
returns `None`, and a non-`None` result arises only from a successfully
fetched page carrying a non-empty `src` attribute. -/
theorem extract_image_url_failure_modes (w : String) :
    extract_image_url w FetchResult.error = none ∧
    extract_image_url w (FetchResult.page none) = none ∧
    extract_image_url w (FetchResult.page (some "")) = none ∧
    ∀ f u, extract_image_url w f = some u →
      ∃ s, f = FetchResult.page (some s) ∧ s ≠ "" := by
  refine ⟨rfl, rfl, rfl, ?_⟩
  intro f u h
  cases f with
  | error => simp [extract_image_url] at h
  | page srcAttr =>
    cases srcAttr with
    | none => simp [extract_image_url] at h
    | some src =>
      refine ⟨src, rfl, ?_⟩
      intro hempty
      subst hempty
      simp [extract_image_url] at h
      exact absurd h.1 (by decide)

/-- Witness for C6 (amended) at a page carrying `src="/img/x.webp"`. -/
theorem extract_image_url_failure_modes_witness :
    extract_image_url "https://example.com/p" FetchResult.error = none ∧
    ∃ s, FetchResult.page (some "/img/x.webp") = FetchResult.page (some s) ∧ s ≠ "" :=
  ⟨(extract_image_url_failure_modes "https://example.com/p").1,
   (extract_image_url_failure_modes "https://example.com/p").2.2.2
      (FetchResult.page (some "/img/x.webp"))
      (resolve_img_url "https://example.com/p" "/img/x.webp") (by decide)⟩

/-- Sample catalog row whose `img` column is already populated. -/
def rowA : DiscRow := ⟨1, "Innova", "Destroyer", some "https://example.com/d", some [5]⟩

/-- Sample catalog row that is eligible for processing. -/
def rowB : DiscRow := ⟨2, "Discraft", "Buzzz", some "https://example.com/b", none⟩

/-- The selector projection of `rowB`. -/
def discB : Disc := ⟨2, "Buzzz", "Discraft", "https://example.com/b"⟩

/-- Sample dispatch state with an empty backup directory and zeroed counters. -/
def st0 : MainState := ⟨[rowA, rowB], [], 0, 0⟩

/-- Sample completion order: one raised future, then one success. -/
def sampleOutcomes : List TaskOutcome :=
  [TaskOutcome.raised, TaskOutcome.completed 2 (some [1]) (some "a.png")]

theorem isEmpty_false_iff (w : String) : w.isEmpty = false ↔ w ≠ "" := by
  have h := String.isEmpty_iff w
  cases hw : w.isEmpty
  · rw [hw] at h
    simp only [Bool.false_eq_true, false_iff] at h
    simp [h]
  · rw [hw] at h
    simp only [true_iff] at h
    simp [h]

/-- The eligibility test of one row, spelled as a proposition. -/
theorem eligibleRow_iff (rr : DiscRow) :
    eligibleRow rr = true ↔
      (∃ w, rr.weblink = some w ∧ w ≠ "") ∧ (rr.img = none ∨ rr.img = some []) := by
  unfold eligibleRow
  cases hw : rr.weblink with
  | none => simp
  | some w =>
    cases hi : rr.img with
    | none => simp [isEmpty_false_iff]
    | some b =>
      cases b with
      | nil => simp [isEmpty_false_iff]
      | cons x xs => simp [String.isEmpty_iff]

/-- C1: the selector returns exactly the rows with a non-null, non-empty
`weblink` and a null-or-empty `img`; a row whose `img` is populated is
never selected, and after a successful run updates a row, that row is
excluded from the candidate set of every later run. -/
theorem get_discs_selection_spec (rows : List DiscRow) (r : DiscRow) :
    (r ∈ selectRows rows ↔
      r ∈ rows ∧ (∃ w, r.weblink = some w ∧ w ≠ "") ∧
        (r.img = none ∨ r.img = some [])) ∧
    (∀ b, r.img = some b → b ≠ [] → r ∉ selectRows rows) ∧
    (∀ disc_id data, data ≠ [] →
      ∀ r2 ∈ selectRows (update_db_image rows disc_id data), r2.id ≠ disc_id) := by
  refine ⟨?_, ?_, ?_⟩
  · rw [selectRows, List.mem_filter, eligibleRow_iff r]
  · intro b hb hbne hin
    rw [selectRows, List.mem_filter] at hin
    rcases ((eligibleRow_iff r).mp hin.2).2 with h0 | h0
    · rw [hb] at h0; exact Option.noConfusion h0
    · rw [hb] at h0
      injection h0 with h0
      exact hbne h0
  · intro disc_id data hdata r2 hr2 hid
    rw [selectRows, List.mem_filter] at hr2
    obtain ⟨hmem, helig⟩ := hr2
    rw [update_db_image, List.mem_map] at hmem
    obtain ⟨r0, _, heq⟩ := hmem
    by_cases h : r0.id = disc_id
    · rw [if_pos h] at heq
      have himg : r2.img = some data := by rw [← heq]
      rcases ((eligibleRow_iff r2).mp helig).2 with h0 | h0
      · rw [himg] at h0; exact Option.noConfusion h0
      · rw [himg] at h0
        injection h0 with h0
        exact hdata h0
    · rw [if_neg h] at heq
      subst heq
      exact h hid

/-- Witness for C1: the populated row is not selected, and after writing
bytes for record 2 no selected row has id 2. -/
theorem get_discs_selection_spec_witness :
    rowA ∉ selectRows [rowA, rowB] ∧ rowB.id ≠ 1 :=
  ⟨(get_discs_selection_spec [rowA, rowB] rowA).2.1 [5] rfl (by decide),
   (get_discs_selection_spec [rowA, rowB] rowB).2.2 1 [7] (by decide) rowB (by decide)⟩

/-- C8: `update_db_image` preserves the table's length, changes only the
`img` column of the rows whose id matches, and leaves every other row
entirely unchanged. -/
theorem update_db_image_frame (db : List DiscRow) (disc_id : Nat) (data : List Nat) :
    (update_db_image db disc_id data).length = db.length ∧
    ∀ (i : Nat) (r r2 : DiscRow), db[i]? = some r →
      (update_db_image db disc_id data)[i]? = some r2 →
      r2.id = r.id ∧ r2.manufacturer = r.manufacturer ∧ r2.model = r.model ∧
      r2.weblink = r.weblink ∧ (r.id ≠ disc_id → r2 = r) ∧
      (r.id = disc_id → r2 = { r with img := some data }) := by
  constructor
  · simp [update_db_image]
  · intro i r r2 h1 h2
    rw [update_db_image, List.getElem?_map, h1, Option.map_some'] at h2
    injection h2 with h2
    by_cases h : r.id = disc_id
    · rw [if_pos h] at h2
      subst h2
      exact ⟨rfl, rfl, rfl, rfl, fun hc => absurd h hc, fun _ => rfl⟩
    · rw [if_neg h] at h2
      subst h2
      exact ⟨rfl, rfl, rfl, rfl, fun _ => rfl, fun hc => absurd hc h⟩

/-- Witness for C8 at the second row of the sample table. -/
theorem update_db_image_frame_witness :
    ({ rowB with img := some [9] } : DiscRow).id = rowB.id ∧
    ({ rowB with img := some [9] } : DiscRow).manufacturer = rowB.manufacturer ∧
    ({ rowB with img := some [9] } : DiscRow).model = rowB.model ∧
    ({ rowB with img := some [9] } : DiscRow).weblink = rowB.weblink ∧
    (rowB.id ≠ 2 → ({ rowB with img := some [9] } : DiscRow) = rowB) ∧
    (rowB.id = 2 →
      ({ rowB with img := some [9] } : DiscRow) = { rowB with img := some [9] }) :=
  (update_db_image_frame [rowA, rowB] 2 [9]).2 1 rowB { rowB with img := some [9] }
    (by decide) (by decide)

/-- C9: the triple returned by `process_disc` carries the input record's
id, has its bytes and filename both set or both `None`, and any returned
filename ends in ".png". -/
theorem process_disc_triple_invariant (disc : Disc) (fetch : FetchResult)
    (download : String → Option (List Nat)) :
    (process_disc disc fetch download).1 = disc.id ∧
    ((process_disc disc fetch download).2.1 = none ↔
      (process_disc disc fetch download).2.2 = none) ∧
    ∀ f, (process_disc disc fetch download).2.2 = some f → ∃ p, f = p ++ ".png" := by
  rcases process_disc_eq disc fetch download with heq | ⟨b, _, heq⟩ <;> rw [heq]
  · exact ⟨rfl, by simp, fun f h => by simp at h⟩
  · refine ⟨rfl, by simp, ?_⟩
    intro f h
    simp only [Option.some.injEq] at h
    subst h
    exact ⟨sanitize_filename disc.manufacturer ++ "_" ++ sanitize_filename disc.model, rfl⟩

/-- Witness for C9 at a record whose pipeline succeeds. -/
theorem process_disc_triple_invariant_witness :
    ∃ p, sanitize_filename "Discraft" ++ "_" ++ sanitize_filename "Buzzz" ++ ".png" =
      p ++ ".png" :=
  (process_disc_triple_invariant discB
      (FetchResult.page (some "https://cdn.example.com/x.webp"))
      (fun _ => some [137])).2.2
    (sanitize_filename "Discraft" ++ "_" ++ sanitize_filename "Buzzz" ++ ".png") (by decide)

/-- C2: a non-Success pipeline outcome (`process_disc` returned `None`
bytes) causes no writes in the completion loop: the catalog and the backup
directory are unchanged, only `fail_count` is bumped, and the candidate
set of a later selector run over that catalog is unchanged. -/
theorem sink_no_writes_on_failure (st : MainState) (disc : Disc) (fetch : FetchResult)
    (download : String → Option (List Nat))
    (h : (process_disc disc fetch download).2.1 = none) :
    (handle_outcome st (TaskOutcome.completed (process_disc disc fetch download).1
        (process_disc disc fetch download).2.1
        (process_disc disc fetch download).2.2)).db = st.db ∧
    (handle_outcome st (TaskOutcome.completed (process_disc disc fetch download).1
        (process_disc disc fetch download).2.1
        (process_disc disc fetch download).2.2)).files = st.files ∧
    (handle_outcome st (TaskOutcome.completed (process_disc disc fetch download).1
        (process_disc disc fetch download).2.1
        (process_disc disc fetch download).2.2)).success_count = st.success_count ∧
    (handle_outcome st (TaskOutcome.completed (process_disc disc fetch download).1
        (process_disc disc fetch download).2.1
        (process_disc disc fetch download).2.2)).fail_count = st.fail_count + 1 ∧
    get_discs_to_process (handle_outcome st
      (TaskOutcome.completed (process_disc disc fetch download).1
        (process_disc disc fetch download).2.1
        (process_disc disc fetch download).2.2)).db = get_discs_to_process st.db := by
  rcases process_disc_eq disc fetch download with heq | ⟨b, _, heq⟩
  · rw [heq]
    exact ⟨rfl, rfl, rfl, rfl, rfl⟩
  · rw [heq] at h
    simp at h

/-- Witness for C2: a transport failure on the sample record leaves the
sample state's catalog, files and success counter unchanged. -/
theorem sink_no_writes_on_failure_witness :
    (handle_outcome st0 (TaskOutcome.completed
        (process_disc discB FetchResult.error (fun _ => none)).1
        (process_disc discB FetchResult.error (fun _ => none)).2.1
        (process_disc discB FetchResult.error (fun _ => none)).2.2)).db = st0.db ∧
    (handle_outcome st0 (TaskOutcome.completed
        (process_disc discB FetchResult.error (fun _ => none)).1
        (process_disc discB FetchResult.error (fun _ => none)).2.1
        (process_disc discB FetchResult.error (fun _ => none)).2.2)).files = st0.files ∧
    (handle_outcome st0 (TaskOutcome.completed
        (process_disc discB FetchResult.error (fun _ => none)).1
        (process_disc discB FetchResult.error (fun _ => none)).2.1
        (process_disc discB FetchResult.error (fun _ => none)).2.2)).success_count =
      st0.success_count ∧
    (handle_outcome st0 (TaskOutcome.completed
        (process_disc discB FetchResult.error (fun _ => none)).1
        (process_disc discB FetchResult.error (fun _ => none)).2.1
        (process_disc discB FetchResult.error (fun _ => none)).2.2)).fail_count =
      st0.fail_count + 1 ∧
    get_discs_to_process (handle_outcome st0 (TaskOutcome.completed
        (process_disc discB FetchResult.error (fun _ => none)).1
        (process_disc discB FetchResult.error (fun _ => none)).2.1
        (process_disc discB FetchResult.error (fun _ => none)).2.2)).db =
      get_discs_to_process st0.db :=
  sink_no_writes_on_failure st0 discB FetchResult.error (fun _ => none) (by decide)

/-- Per-outcome accounting of the completion loop. -/
theorem handle_outcome_counts (st : MainState) (o : TaskOutcome) :
    (handle_outcome st o).success_count =
      st.success_count + (if isSuccessOutcome o then 1 else 0) ∧
    (handle_outcome st o).fail_count =
      st.fail_count + (if isSuccessOutcome o then 0 else 1) := by
  cases o with
  | raised => simp [handle_outcome, isSuccessOutcome]
  | completed id png fname =>
    cases png with
    | none => simp [handle_outcome, isSuccessOutcome]
    | some b =>
      cases fname with
      | none => simp [handle_outcome, isSuccessOutcome]
      | some f =>
        by_cases hb : b.isEmpty = true
        · simp [handle_outcome, isSuccessOutcome, hb]
        · by_cases hf : f.isEmpty = true
          · simp [handle_outcome, isSuccessOutcome, hb, hf]
          · simp [handle_outcome, isSuccessOutcome, hb, hf]

/-- Accounting over a whole completion sequence. -/
theorem run_outcomes_counts (outcomes : List TaskOutcome) :
    ∀ st : MainState,
      (run_outcomes st outcomes).success_count =
        st.success_count + outcomes.countP (fun o => isSuccessOutcome o) ∧
      (run_outcomes st outcomes).fail_count =
        st.fail_count + outcomes.countP (fun o => !isSuccessOutcome o) := by
  induction outcomes with
  | nil => intro st; simp [run_outcomes]
  | cons o rest ih =>
    intro st
    have hr : run_outcomes st (o :: rest) = run_outcomes (handle_outcome st o) rest := rfl
    obtain ⟨hs, hf⟩ := handle_outcome_counts st o
    obtain ⟨h2s, h2f⟩ := ih (handle_outcome st o)
    rw [hr]
    constructor
    · rw [h2s, hs, List.countP_cons]
      by_cases hi : isSuccessOutcome o = true <;> simp [hi] <;> omega
    · rw [h2f, hf, List.countP_cons]
      by_cases hi : isSuccessOutcome o = true <;> simp [hi] <;> omega

/-- C3: once every dispatched task has completed,
`success_count + fail_count` equals the number of candidates;
`success_count` counts exactly the outcomes on which the catalog and
backup writes run (truthy bytes and filename), `fail_count` counts every
other outcome including raised futures, and both counts are the same for
any permutation of the completion order. -/
theorem main_counts_spec (st : MainState) (outcomes outcomes2 : List TaskOutcome)
    (hperm : outcomes.Perm outcomes2) :
    (run_outcomes st outcomes).success_count + (run_outcomes st outcomes).fail_count =
      st.success_count + st.fail_count + outcomes.length ∧
    (run_outcomes st outcomes).success_count =
      st.success_count + outcomes.countP (fun o => isSuccessOutcome o) ∧
    (run_outcomes st outcomes).fail_count =
      st.fail_count + outcomes.countP (fun o => !isSuccessOutcome o) ∧
    (run_outcomes st outcomes2).success_count =
      (run_outcomes st outcomes).success_count ∧
    (run_outcomes st outcomes2).fail_count =
      (run_outcomes st outcomes).fail_count := by
  obtain ⟨hs, hf⟩ := run_outcomes_counts outcomes st
  obtain ⟨hs2, hf2⟩ := run_outcomes_counts outcomes2 st
  have hlen : ∀ l : List TaskOutcome, l.length =
      l.countP (fun o => isSuccessOutcome o) + l.countP (fun o => !isSuccessOutcome o) := by
    intro l
    induction l with
    | nil => simp
    | cons o rest ih =>
      rw [List.length_cons, List.countP_cons, List.countP_cons, ih]
      by_cases hi : isSuccessOutcome o = true <;> simp [hi] <;> omega
  refine ⟨?_, hs, hf, ?_, ?_⟩
  · rw [hs, hf, hlen outcomes]; omega
  · rw [hs2, hs, hperm.countP_eq]
  · rw [hf2, hf, hperm.countP_eq]

/-- Witness for C3 on a concrete two-outcome completion and its reversal. -/
theorem main_counts_spec_witness :
    (run_outcomes st0 sampleOutcomes).success_count +
      (run_outcomes st0 sampleOutcomes).fail_count =
      st0.success_count + st0.fail_count + sampleOutcomes.length ∧
    (run_outcomes st0 sampleOutcomes).success_count =
      st0.success_count + sampleOutcomes.countP (fun o => isSuccessOutcome o) ∧
    (run_outcomes st0 sampleOutcomes).fail_count =
      st0.fail_count + sampleOutcomes.countP (fun o => !isSuccessOutcome o) ∧
    (run_outcomes st0 sampleOutcomes.reverse).success_count =
      (run_outcomes st0 sampleOutcomes).success_count ∧
    (run_outcomes st0 sampleOutcomes.reverse).fail_count =
      (run_outcomes st0 sampleOutcomes).fail_count :=
  main_counts_spec st0 sampleOutcomes sampleOutcomes.reverse (by decide)

end DiscCharts
